import Mathlib

/-!
# Verification of the health-tech client synchronization engine

A shallow embedding, in Lean 4, of the client-side synchronization core of
the `health-tech-app` repository:

* the offline persistent ingest queue (`utils/ingestQueue.js`, the file whose
  header reads "Offline queue manager for ingesting data when network is
  unavailable"): `QueueItem`, `enqueue`, `dequeue`, `flush`;
* the accelerometer chunk builder (`services/imuSync.js`):
  `AccelerometerChunkBuilder`, `addSample`, `buildChunk`, `forceFlush`;
* the axios response interceptor with its single-flight token refresh
  (`services/api.js`);
* the sync orchestrator (`services/healthSync.js`): `ENDPOINT_CONFIG`,
  `syncRecordsToEndpoint`, `syncAll`.

JavaScript numbers used for sample values, rates and time offsets are
embedded as `ℚ`; epoch-millisecond timestamps as `ℤ`; payloads are opaque
(`Nat` identifiers).  Asynchronous effects are embedded as explicit state
passing; callers that may observe thrown exceptions return `Except`.
Network and storage outcomes are supplied by oracles (explicit functions),
so every definition is executable.
-/

namespace IngestQueue

/-- Module-level constant `MAX_QUEUE_SIZE` from the queue source. -/
def MAX_QUEUE_SIZE : Nat := 1000

/-- Module-level constant `MAX_RETRIES` from the queue source. -/
def MAX_RETRIES : Nat := 3

/-- Module-level constant `RETRY_DELAYS` (milliseconds) from the queue source. -/
def RETRY_DELAYS : List Nat := [1000, 5000, 15000]

/-- `QueueItem` from the queue source.  `data` is the opaque payload
(identified by a `Nat`), `timestamp` is the enqueue time in epoch
milliseconds (the source stores an ISO string and compares via
`new Date(...)` subtraction, which is the same order), `id` abstracts the
generated `timestamp-random` string id. -/
structure QueueItem where
  id : Nat
  recordType : String
  data : Nat
  priority : String
  timestamp : Int
  retries : Nat
deriving DecidableEq

/-- `QueueItem.shouldRetry`: `this.retries < MAX_RETRIES`.  Note the source
uses the module constant `MAX_RETRIES`, not the queue option. -/
def QueueItem.shouldRetry (it : QueueItem) : Bool :=
  it.retries < MAX_RETRIES

/-- `QueueItem.getRetryDelay`: `RETRY_DELAYS[min(retries, length - 1)]`. -/
def QueueItem.getRetryDelay (it : QueueItem) : Nat :=
  (RETRY_DELAYS.get? (min it.retries (RETRY_DELAYS.length - 1))).getD 0

/-- `QueueItem.incrementRetries`: bumps the in-memory retry counter. -/
def QueueItem.incrementRetries (it : QueueItem) : QueueItem :=
  { it with retries := it.retries + 1 }

/-- `getPriorityWeight`: `{high: 3, normal: 2, low: 1}` with default `2`. -/
def getPriorityWeight (priority : String) : Nat :=
  if priority = "high" then 3
  else if priority = "normal" then 2
  else if priority = "low" then 1
  else 2

/-- The comparator passed to `Array.prototype.sort` in `enqueue`/`dequeue`:
priority weight descending, then timestamp ascending.  `itemLe a b` holds
exactly when the comparator returns a non-positive value on `(a, b)`, i.e.
when `a` may stay before `b`. -/
def itemLe (a b : QueueItem) : Bool :=
  if getPriorityWeight a.priority = getPriorityWeight b.priority then
    a.timestamp ≤ b.timestamp
  else
    getPriorityWeight b.priority < getPriorityWeight a.priority

/-- Stable insertion of `a` into `l`: `a` goes after every element `b` with
`le b a` and before the first strictly greater element. -/
def stableInsert (le : α → α → Bool) (a : α) : List α → List α
  | [] => [a]
  | b :: l => if le b a then b :: stableInsert le a l else a :: b :: l

/-- A stable sort for a total comparator, embedding JavaScript
`Array.prototype.sort` (which ECMAScript requires to be stable and
consistent with the comparator). -/
def stableSort (le : α → α → Bool) (l : List α) : List α :=
  l.foldl (fun acc a => stableInsert le a acc) []

/-- The mutable fields of an `IngestQueue` instance together with the
`AsyncStorage` contents under `QUEUE_KEY` (`stored`). -/
structure QueueState where
  maxQueueSize : Nat
  maxRetries : Nat
  retryDelays : List Nat
  batchSize : Nat
  isProcessing : Bool
  stored : List QueueItem
deriving DecidableEq

/-- `new IngestQueue()` with default options and empty storage. -/
def initQueue : QueueState :=
  { maxQueueSize := MAX_QUEUE_SIZE
    maxRetries := MAX_RETRIES
    retryDelays := RETRY_DELAYS
    batchSize := 10
    isProcessing := false
    stored := [] }

/-- `IngestQueue.enqueue(recordType, data, priority)`.  `newId` stands for
`generateId()` and `now` for `new Date()` at item creation.  At or above
capacity the source sorts the stored array in place (priority descending,
then timestamp ascending), removes the first `low`-priority entry of the
sorted array if one exists and otherwise `pop()`s the last entry, saves,
then pushes the new item onto the same (sorted) array and saves again. -/
def enqueue (s : QueueState) (recordType : String) (data : Nat)
    (priority : String) (newId : Nat) (now : Int) : QueueState × Nat :=
  let items := s.stored
  let items :=
    if s.maxQueueSize ≤ items.length then
      let sorted := stableSort itemLe items
      match sorted.findIdx? (fun it => it.priority == "low") with
      | some i => sorted.eraseIdx i
      | none => sorted.dropLast
    else items
  let item : QueueItem :=
    { id := newId, recordType := recordType, data := data,
      priority := priority, timestamp := now, retries := 0 }
  ({ s with stored := items ++ [item] }, newId)

/-- `IngestQueue.dequeue(maxBatch)`: sort by priority descending then
timestamp ascending, `splice` off the first `min(batchSize, length)` items,
save the remainder. -/
def dequeue (s : QueueState) (maxBatch : Option Nat) :
    List QueueItem × QueueState :=
  let items := s.stored
  let batchSize := maxBatch.getD s.batchSize
  if items.length = 0 then ([], s)
  else
    let sorted := stableSort itemLe items
    let n := min batchSize sorted.length
    (sorted.take n, { s with stored := sorted.drop n })

/-- Outcome of `ingestRecords` for one dequeued item during `flush`:
either the transport succeeds, or it throws — and in the latter case the
`saveQueue` performed by the re-enqueue may itself throw
(`enqueueThrows`). -/
inductive ItemOutcome where
  | ok : ItemOutcome
  | fail (enqueueThrows : Bool) : ItemOutcome
deriving DecidableEq

/-- Oracle for one `flush` call: whether the `saveQueue` inside `dequeue`
throws, the transport outcome for the i-th processed item, and the
`generateId()` / `new Date()` values used by the i-th re-enqueue. -/
structure FlushEnv where
  dequeueSaveThrows : Bool
  outcome : Nat → ItemOutcome
  freshId : Nat → Nat
  freshTime : Nat → Int

/-- The `{success, failed, retried}` counters returned by `flush`. -/
structure FlushResult where
  success : Nat
  failed : Nat
  retried : Nat
deriving DecidableEq

/-- The per-item loop of `flush`.  On a transport failure of an item with
`shouldRetry()` true, the source calls `item.incrementRetries()` on the
in-memory copy and then re-enqueues via
`enqueue(item.recordType, item.data, item.priority)` — the enqueue receives
only those three fields, so the persisted replacement is a fresh item
(retries `0`); the backoff delay does not change queue state.  An exception
from the re-enqueue's `saveQueue` propagates out of the loop. -/
def flushLoop (env : FlushEnv) :
    List QueueItem → Nat → QueueState → FlushResult →
    Except Unit FlushResult × QueueState
  | [], _, s, acc => (Except.ok acc, s)
  | it :: rest, i, s, acc =>
    match env.outcome i with
    | ItemOutcome.ok =>
      flushLoop env rest (i + 1) s { acc with success := acc.success + 1 }
    | ItemOutcome.fail enqueueThrows =>
      if it.shouldRetry then
        if enqueueThrows then (Except.error (), s)
        else
          let s1 := (enqueue s it.recordType it.data it.priority
            (env.freshId i) (env.freshTime i)).1
          flushLoop env rest (i + 1) s1
            { acc with retried := acc.retried + 1 }
      else
        flushLoop env rest (i + 1) s { acc with failed := acc.failed + 1 }

/-- `IngestQueue.flush(maxBatch)`.  The guard returns zero counts while
`isProcessing` is set; otherwise the flag is raised, the batch is dequeued
and processed, and the `finally` clause lowers the flag on every exit,
normal or exceptional. -/
def flush (s : QueueState) (maxBatch : Option Nat) (env : FlushEnv) :
    Except Unit FlushResult × QueueState :=
  if s.isProcessing then
    (Except.ok { success := 0, failed := 0, retried := 0 }, s)
  else
    let s1 := { s with isProcessing := true }
    if env.dequeueSaveThrows then
      (Except.error (), { s1 with isProcessing := false })
    else
      let (items, s2) := dequeue s1 maxBatch
      if items.length = 0 then
        (Except.ok { success := 0, failed := 0, retried := 0 },
          { s2 with isProcessing := false })
      else
        let (r, s3) := flushLoop env items 0 s2
          { success := 0, failed := 0, retried := 0 }
        (r, { s3 with isProcessing := false })

end IngestQueue

namespace ImuSync

/-- `AccelSample` from `services/imuSync.js`: the raw triple plus the
optional explicit offset and optional absolute timestamp (epoch ms). -/
structure AccelSample where
  x : ℚ
  y : ℚ
  z : ℚ
  tOffsetMs : Option ℚ
  ts : Option Int
deriving DecidableEq

/-- The time field a chunk sample is emitted with: `buildChunk` spreads
`{ ts }` when the sample has an absolute timestamp and `{ tOffsetMs }`
otherwise. -/
inductive SampleTime where
  | atTs (t : Int) : SampleTime
  | atOffset (o : ℚ) : SampleTime
deriving DecidableEq

/-- One entry of a sealed chunk's `samples` array. -/
structure ChunkSample where
  x : ℚ
  y : ℚ
  z : ℚ
  time : SampleTime
deriving DecidableEq

/-- A sealed chunk as produced by `buildChunk`. -/
structure Chunk where
  deviceId : String
  deviceModel : Option String
  platform : String
  sampleRateHz : ℚ
  startedAt : Int
  samples : List ChunkSample
deriving DecidableEq

/-- The mutable state of an `AccelerometerChunkBuilder`. -/
structure Builder where
  deviceId : String
  deviceModel : Option String
  platform : String
  sampleRateHz : ℚ
  samples : List AccelSample
  startedAt : Option Int
  chunkDurationMs : ℚ
  maxSamples : Int
deriving DecidableEq

/-- The `AccelerometerChunkBuilder` constructor:
`chunkDurationMs = 5000` and
`maxSamples = Math.floor(sampleRateHz * chunkDurationMs / 1000)`. -/
def mkBuilder (deviceId : String) (deviceModel : Option String)
    (platform : String) (sampleRateHz : ℚ) : Builder :=
  { deviceId := deviceId
    deviceModel := deviceModel
    platform := platform
    sampleRateHz := sampleRateHz
    samples := []
    startedAt := none
    chunkDurationMs := 5000
    maxSamples := Int.floor (sampleRateHz * 5000 / 1000) }

/-- The per-sample projection inside `buildChunk`'s `samples.map`: spread
`{ ts }` when the sample has one, else `{ tOffsetMs }` (`addSample` always
stores an offset, so the `getD 0` default is never the value read). -/
def projSample (s : AccelSample) : ChunkSample :=
  { x := s.x, y := s.y, z := s.z
    time :=
      match s.ts with
      | some t => SampleTime.atTs t
      | none => SampleTime.atOffset (s.tOffsetMs.getD 0) }

/-- `buildChunk()`: the pure projection of the buffered samples; `null` on
an empty buffer. -/
def buildChunk (b : Builder) : Option Chunk :=
  if b.samples.length = 0 then none
  else
    some
      { deviceId := b.deviceId
        deviceModel := b.deviceModel
        platform := b.platform
        sampleRateHz := b.sampleRateHz
        startedAt := b.startedAt.getD 0
        samples := b.samples.map projSample }

/-- `flushChunk()`: build the chunk and, when one exists, reset the sample
buffer and `startedAt`. -/
def flushChunk (b : Builder) : Option Chunk × Builder :=
  match buildChunk b with
  | none => (none, b)
  | some c => (some c, { b with samples := [], startedAt := none })

/-- `forceFlush()`: identical body to `flushChunk` in the source — build
whatever is buffered and reset. -/
def forceFlush (b : Builder) : Option Chunk × Builder :=
  match buildChunk b with
  | none => (none, b)
  | some c => (some c, { b with samples := [], startedAt := none })

/-- `addSample(x, y, z, tOffsetMs, ts)`.  `now` stands for `new Date()` in
the `this.startedAt = ts || new Date()` fallback.  The offset is the
explicit one when given, else the delta `ts - startedAt` when a timestamp
is given, else `samples.length * (1000 / sampleRateHz)`.  After the push,
the chunk is sealed and the buffer reset exactly when
`samples.length >= maxSamples`. -/
def addSample (b : Builder) (x y z : ℚ) (tOffsetMs : Option ℚ)
    (ts : Option Int) (now : Int) : Option Chunk × Builder :=
  let startedAt :=
    match b.startedAt with
    | some t => t
    | none =>
      match ts with
      | some t => t
      | none => now
  let off : ℚ :=
    match tOffsetMs, ts with
    | none, some tsv => ((tsv - startedAt : Int) : ℚ)
    | none, none => (b.samples.length : ℚ) * (1000 / b.sampleRateHz)
    | some o, _ => o
  let b1 :=
    { b with startedAt := some startedAt
             samples := b.samples ++
               [{ x := x, y := y, z := z, tOffsetMs := some off, ts := ts }] }
  if b.maxSamples ≤ (b1.samples.length : Int) then flushChunk b1
  else (none, b1)

/-- The builder states reachable through the source API, starting from the
constructor. -/
inductive Reachable : Builder → Prop where
  | init (deviceId : String) (deviceModel : Option String)
      (platform : String) (sampleRateHz : ℚ) :
      Reachable (mkBuilder deviceId deviceModel platform sampleRateHz)
  | add (b : Builder) (x y z : ℚ) (tOffsetMs : Option ℚ) (ts : Option Int)
      (now : Int) (h : Reachable b) :
      Reachable (addSample b x y z tOffsetMs ts now).2
  | flush (b : Builder) (h : Reachable b) : Reachable (flushChunk b).2
  | force (b : Builder) (h : Reachable b) : Reachable (forceFlush b).2

/-- The offsets of a chunk's samples relative to its `startedAt`: samples
emitted with an absolute `ts` contribute `ts - startedAt`, samples emitted
with `tOffsetMs` contribute it directly. -/
def chunkOffsets (c : Chunk) : List ℚ :=
  c.samples.map (fun s =>
    match s.time with
    | SampleTime.atTs t => ((t - c.startedAt : Int) : ℚ)
    | SampleTime.atOffset o => o)

/-- Offsets listed in non-decreasing order. -/
def offsetsMonotone (l : List ℚ) : Prop :=
  List.Chain' (fun a b => a ≤ b) l

/-- Feed a stream of raw triples through `addSample` with neither an
explicit offset nor a timestamp (the index-based fallback path, `now = 0`),
collecting the sealed chunks in order. -/
def runFallback : Builder → List (ℚ × ℚ × ℚ) → Builder × List Chunk
  | b, [] => (b, [])
  | b, v :: rest =>
    let r := addSample b v.1 v.2.1 v.2.2 none none 0
    let rest2 := runFallback r.2 rest
    (rest2.1, r.1.toList ++ rest2.2)

/-- A buffer filled exclusively through the index-based fallback path:
sample `i` holds offset `i * (1000 / sampleRateHz)` and no absolute
timestamp. -/
def FallbackBuffer (b : Builder) : Prop :=
  b.samples.map (fun s => s.tOffsetMs) =
    (List.range b.samples.length).map
      (fun i : Nat => some ((i : ℚ) * (1000 / b.sampleRateHz))) ∧
  ∀ s ∈ b.samples, s.ts = none

/-- The builder of Scenario C: `sampleRateHz = 50`,
`chunkDurationMs = 5000`. -/
def b50 : Builder := mkBuilder "test-device" none "wear-os" 50

/-- The state of `new AccelerometerChunkBuilder('dev', null, 'wear-os', 50)`
with its `maxSamples` written as the literal `250`
(`Math.floor(50 * 5000 / 1000)`); proven equal to the constructor's
output below. -/
def b50Lit : Builder :=
  { deviceId := "dev"
    deviceModel := none
    platform := "wear-os"
    sampleRateHz := 50
    samples := []
    startedAt := none
    chunkDurationMs := 5000
    maxSamples := 250 }

/-- The sample counts of a list of sealed chunks. -/
def chunkLengths (cs : List Chunk) : List Nat :=
  cs.map (fun c => c.samples.length)

end ImuSync

namespace Api

/-- A failing request as seen by the response interceptor: its config
(`_retry` flag, abstract id) and the error's HTTP status and body message
(`detail`/`message`, already concatenated to one string here). -/
structure Request where
  rid : Nat
  status : Nat
  bodyMsg : String
  retryFlag : Bool
deriving DecidableEq

/-- Whether `pat` occurs at the head of `l`. -/
def headMatches [DecidableEq α] : List α → List α → Bool
  | [], _ => true
  | _ :: _, [] => false
  | a :: pat, b :: l => a = b && headMatches pat l

/-- Whether `pat` occurs contiguously anywhere in `l`
(JavaScript `String.prototype.includes` on the character sequence). -/
def hasSubSeq [DecidableEq α] (pat : List α) : List α → Bool
  | [] => headMatches pat []
  | b :: l => headMatches pat (b :: l) || hasSubSeq pat l

/-- ASCII lowercasing of one character (the fragment of
`String.prototype.toLowerCase` relevant to the pattern matched here). -/
def lowerChar (c : Char) : Char :=
  if 'A' ≤ c ∧ c ≤ 'Z' then Char.ofNat (c.toNat + 32) else c

/-- The character sequence of `m.toLowerCase()`. -/
def lowerStr (m : String) : List Char := m.data.map lowerChar

/-- `bodyMsg.toString().toLowerCase().includes('invalid token')`. -/
def hasInvalidTokenMsg (m : String) : Bool :=
  hasSubSeq "invalid token".data (lowerStr m)

/-- The interceptor's classification:
`status === 401 || (status === 403 && bodyMsg.includes('invalid token'))`. -/
def isInvalidToken (status : Nat) (bodyMsg : String) : Bool :=
  status == 401 || (status == 403 && hasInvalidTokenMsg bodyMsg)

/-- The module-level refresh coordination state of `services/api.js`
together with the token storage and the observable network/retry trace:
`refreshCalls` counts `POST /refresh` network calls, `retried` records each
re-dispatch of an original request with the token placed in its
`Authorization` header (`none` embeds the `Bearer null` a subscriber gets
after a failed refresh), `rejectedReqs` the requests whose error is
re-thrown to the caller. -/
structure ApiState where
  isRefreshing : Bool
  refreshSubscribers : List Nat
  storedAccess : Option String
  storedRefresh : Option String
  refreshCalls : Nat
  retried : List (Nat × Option String)
  rejectedReqs : List Nat
  pendingInitiator : Option Nat
deriving DecidableEq

/-- The module state right after load, with the given stored tokens. -/
def initState (storedAccess storedRefresh : Option String) : ApiState :=
  { isRefreshing := false
    refreshSubscribers := []
    storedAccess := storedAccess
    storedRefresh := storedRefresh
    refreshCalls := 0
    retried := []
    rejectedReqs := []
    pendingInitiator := none }

/-- The synchronous prefix of the response-interceptor error handler, up to
its first suspension point.  A non-auth error, or an auth error on a
request already marked `_retry`, is re-thrown.  Otherwise `_retry` is set
and: if a refresh is already in flight the request subscribes to the
completion list; if not, `isRefreshing` is raised and this request's
handler becomes the (unique) refresher — it then suspends on
`getStoredTokens()`. -/
def interceptAuthError (s : ApiState) (r : Request) : ApiState :=
  if isInvalidToken r.status r.bodyMsg && !r.retryFlag then
    if s.isRefreshing then
      { s with refreshSubscribers := s.refreshSubscribers ++ [r.rid] }
    else
      { s with isRefreshing := true, pendingInitiator := some r.rid }
  else
    { s with rejectedReqs := s.rejectedReqs ++ [r.rid] }

/-- The refresher's continuation once `getStoredTokens()` resolves.  With
no stored refresh token it lowers the flag, clears storage and rejects —
issuing no refresh network call.  With one, it issues the single
`axios.post(.../refresh, ...)` network call. -/
def continueRefresh (s : ApiState) : ApiState :=
  match s.pendingInitiator with
  | none => s
  | some init =>
    match s.storedRefresh with
    | none =>
      { s with isRefreshing := false
               storedAccess := none
               storedRefresh := none
               rejectedReqs := s.rejectedReqs ++ [init]
               pendingInitiator := none }
    | some _ => { s with refreshCalls := s.refreshCalls + 1 }

/-- The refresher's continuation when the refresh network call settles.
On success (`some (newTok, newRefresh?)`): tokens are saved (keeping the
old refresh token when the response has none), `onRefreshed` retries every
subscriber once with the new token, the flag is lowered, and the original
request is retried once with the new token.  On failure: storage is
cleared, every subscriber is resolved with a `null` token, the flag is
lowered and the original error is re-thrown. -/
def completeRefresh (s : ApiState) (out : Option (String × Option String)) :
    ApiState :=
  match s.pendingInitiator with
  | none => s
  | some init =>
    match out with
    | some (newTok, newRefresh) =>
      { s with storedAccess := some newTok
               storedRefresh :=
                 match newRefresh with
                 | some nr => some nr
                 | none => s.storedRefresh
               retried := s.retried ++
                 s.refreshSubscribers.map (fun rid => (rid, some newTok)) ++
                 [(init, some newTok)]
               refreshSubscribers := []
               isRefreshing := false
               pendingInitiator := none }
    | none =>
      { s with storedAccess := none
               storedRefresh := none
               isRefreshing := false
               retried := s.retried ++
                 s.refreshSubscribers.map
                   (fun rid => (rid, (none : Option String)))
               refreshSubscribers := []
               rejectedReqs := s.rejectedReqs ++ [init]
               pendingInitiator := none }

end Api

namespace HealthSync

/-- One row of `ENDPOINT_CONFIG` in `services/healthSync.js`. -/
structure EndpointCfg where
  useIngest : Bool
  enableRaw : Bool
deriving DecidableEq

/-- `ENDPOINT_CONFIG`, parameterized by the
`config.ingest?.recordTypes?.<T> || false` flags. -/
def ENDPOINT_CONFIG (ingestTypes : String → Bool) :
    List (String × EndpointCfg) :=
  [("HeartRate", { useIngest := ingestTypes "HeartRate", enableRaw := true }),
   ("Steps", { useIngest := ingestTypes "Steps", enableRaw := true }),
   ("Accelerometer",
     { useIngest := ingestTypes "Accelerometer", enableRaw := true }),
   ("Distance", { useIngest := ingestTypes "Distance", enableRaw := false }),
   ("SleepSession",
     { useIngest := ingestTypes "SleepSession", enableRaw := false }),
   ("ExerciseSession",
     { useIngest := ingestTypes "ExerciseSession", enableRaw := false })]

/-- `getEndpointConfig`: the configured row, defaulting to
`{useIngest: false, enableRaw: false}`. -/
def getEndpointConfig (ingestTypes : String → Bool) (recordType : String) :
    EndpointCfg :=
  ((ENDPOINT_CONFIG ingestTypes).lookup recordType).getD
    { useIngest := false, enableRaw := false }

/-- One outbound transport request issued while syncing: a
`POST /ingest/{recordType}` or `POST /sync/{recordType}`, carrying the
records placed in its body.  Records are opaque (`Nat` ids). -/
inductive RequestRec where
  | ingestReq (recordType : String) (records : List Nat) : RequestRec
  | syncReq (recordType : String) (records : List Nat) : RequestRec
deriving DecidableEq

/-- The records carried by one outbound request. -/
def RequestRec.payload : RequestRec → List Nat
  | RequestRec.ingestReq _ records => records
  | RequestRec.syncReq _ records => records

/-- Decidable equality for `Except`, used to evaluate concrete scenarios. -/
instance exceptDecidableEq {ε α : Type} [DecidableEq ε] [DecidableEq α] :
    DecidableEq (Except ε α) := fun a b =>
  match a, b with
  | Except.error e, Except.error f => decidable_of_iff (e = f) (by simp)
  | Except.error _, Except.ok _ => Decidable.isFalse (fun hc => by cases hc)
  | Except.ok _, Except.error _ => Decidable.isFalse (fun hc => by cases hc)
  | Except.ok x, Except.ok y => decidable_of_iff (x = y) (by simp)

/-- The `results` object built by `syncRecordsToEndpoint`: each endpoint's
entry is absent when that endpoint was not used, and otherwise holds either
the parsed response or the caught error (`results.x = {error: ...}`). -/
structure SyncEndpointResults where
  ingest : Option (Except String Unit)
  sync : Option (Except String Unit)
deriving DecidableEq

/-- `syncRecordsToEndpoint(recordType, records, parallelMode)`: sends the
full record list to `/ingest/` when `useIngest || parallelMode`, and to
`/sync/` when `!useIngest || parallelMode`, catching each endpoint's error
into the results object.  `ingestOut`/`syncOut` are the network oracles.
Also returns the list of issued requests, in order. -/
def syncRecordsToEndpoint (ingestTypes : String → Bool)
    (ingestOut syncOut : String → List Nat → Except String Unit)
    (recordType : String) (records : List Nat) (parallelMode : Bool) :
    SyncEndpointResults × List RequestRec :=
  let cfg := getEndpointConfig ingestTypes recordType
  let ingestPart :=
    if cfg.useIngest || parallelMode then
      (some (ingestOut recordType records),
       [RequestRec.ingestReq recordType records])
    else ((none : Option (Except String Unit)), [])
  let syncPart :=
    if !cfg.useIngest || parallelMode then
      (some (syncOut recordType records),
       [RequestRec.syncReq recordType records])
    else ((none : Option (Except String Unit)), [])
  ({ ingest := ingestPart.1, sync := syncPart.1 },
   ingestPart.2 ++ syncPart.2)

/-- The records obtained for a type in `syncAll`'s first pass:
`readRecords` errors are caught and recorded as an empty list. -/
def countsFor (readOut : String → Except String (List Nat)) (t : String) :
    List Nat :=
  match readOut t with
  | Except.ok rs => rs
  | Except.error _ => []

/-- Whether `syncAll` counts a type's records as synced:
`results.ingest && !results.ingest.error`, else
`results.sync && !results.sync.error`. -/
def countedResults (results : SyncEndpointResults) : Bool :=
  match results.ingest with
  | some (Except.ok _) => true
  | some (Except.error _) =>
    match results.sync with
    | some (Except.ok _) => true
    | _ => false
  | none =>
    match results.sync with
    | some (Except.ok _) => true
    | _ => false

/-- The value returned by `syncAll` (`timestamp` omitted):
`total = syncedRecords`, `requested = totalRecords`. -/
structure SyncAllResult where
  total : Nat
  requested : Nat
deriving DecidableEq

/-- The body of `syncAll`'s second-pass loop for one record type: skip an
empty type, otherwise submit through `syncRecordsToEndpoint` (whose
per-endpoint errors are caught internally, and around which `syncAll` has
its own log-and-continue catch) and add the type's record count when the
results are counted as success. -/
def syncAllStep (ingestTypes : String → Bool)
    (ingestOut syncOut : String → List Nat → Except String Unit)
    (parallelMode : Bool) (readOut : String → Except String (List Nat))
    (acc : Nat × List RequestRec) (t : String) : Nat × List RequestRec :=
  let records := countsFor readOut t
  if records.length = 0 then acc
  else
    let res := syncRecordsToEndpoint ingestTypes ingestOut syncOut t
      records parallelMode
    (acc.1 + (if countedResults res.1 then records.length else 0),
     acc.2 ++ res.2)

/-- `syncAll`: throws when permissions are missing; otherwise counts the
records of every supported type (read errors caught as empty), then
processes the types sequentially with `syncAllStep` and returns the totals
together with the full outbound request trace. -/
def syncAll (recordTypes : List String)
    (readOut : String → Except String (List Nat))
    (ingestTypes : String → Bool)
    (ingestOut syncOut : String → List Nat → Except String Unit)
    (parallelMode : Bool) (permissionsOk : Bool) :
    Except String SyncAllResult × List RequestRec :=
  if !permissionsOk then (Except.error "Missing permissions", [])
  else
    let totalRecords :=
      (recordTypes.map (fun t => (countsFor readOut t).length)).sum
    let folded := recordTypes.foldl
      (syncAllStep ingestTypes ingestOut syncOut parallelMode readOut)
      (0, [])
    (Except.ok { total := folded.1, requested := totalRecords }, folded.2)

/-- The record type an outbound request addresses. -/
def RequestRec.rtype : RequestRec → String
  | RequestRec.ingestReq recordType _ => recordType
  | RequestRec.syncReq recordType _ => recordType

/-- What one record type contributes to `syncedRecords`: nothing when it
has no records or when neither endpoint result is counted as success, its
full record count otherwise. -/
def typeContribution (ingestTypes : String → Bool)
    (ingestOut syncOut : String → List Nat → Except String Unit)
    (parallelMode : Bool) (readOut : String → Except String (List Nat))
    (t : String) : Nat :=
  let records := countsFor readOut t
  if records.length = 0 then 0
  else if countedResults (syncRecordsToEndpoint ingestTypes ingestOut syncOut
      t records parallelMode).1 then records.length
  else 0

/-- What one record type contributes to `totalRecords`. -/
def typeRequested (readOut : String → Except String (List Nat))
    (t : String) : Nat :=
  (countsFor readOut t).length

/-- A configuration in which no record type routes to `/ingest/`. -/
def noIngestTypes : String → Bool := fun _ => false

/-- An always-succeeding `/ingest/` transport. -/
def ingestOutOk : String → List Nat → Except String Unit :=
  fun _ _ => Except.ok ()

/-- An always-succeeding `/sync/` transport. -/
def syncOutOk : String → List Nat → Except String Unit :=
  fun _ _ => Except.ok ()

/-- Scenario E reads: 2 `HeartRate` records, 3 `Steps` records, 1
`Distance` record, nothing else. -/
def readOutScenarioE : String → Except String (List Nat) := fun t =>
  if t = "HeartRate" then Except.ok [1, 2]
  else if t = "Steps" then Except.ok [3, 4, 5]
  else if t = "Distance" then Except.ok [6]
  else Except.ok []

/-- Scenario E transport: the `/sync/` call throws for `Steps` (type 2 of
3) and succeeds for every other type. -/
def syncOutFailSteps : String → List Nat → Except String Unit := fun t _ =>
  if t = "Steps" then Except.error "Network Error" else Except.ok ()

end HealthSync

namespace IngestQueue

/-- An environment in which every transport attempt fails (and nothing
else throws): `ingestRecords` rejects, the re-enqueue's `saveQueue`
succeeds.  Re-enqueues receive ids `100, 101, ...` and timestamps
`10, 11, ...`. -/
def failEnv : FlushEnv :=
  { dequeueSaveThrows := false
    outcome := fun _ => ItemOutcome.fail false
    freshId := fun i => 100 + i
    freshTime := fun i => 10 + (i : Int) }

/-- An environment in which every transport attempt succeeds. -/
def okEnv : FlushEnv :=
  { dequeueSaveThrows := false
    outcome := fun _ => ItemOutcome.ok
    freshId := fun i => 100 + i
    freshTime := fun i => 10 + (i : Int) }

/-- A default queue holding one never-yet-retried `HeartRate` item. -/
def qOne : QueueState :=
  { initQueue with stored := [{ id := 1, recordType := "HeartRate", data := 0,
                                priority := "normal", timestamp := 0,
                                retries := 0 }] }

/-- The fixed point reached by flushing `qOne` under `failEnv`: the same
payload re-enqueued as a fresh item with `retries = 0`. -/
def qFix : QueueState :=
  { initQueue with stored := [{ id := 100, recordType := "HeartRate", data := 0,
                                priority := "normal", timestamp := 10,
                                retries := 0 }] }

/-- The queue contents after `k` flushes of `qOne` under `failEnv`. -/
def iterFailFlush : Nat → QueueState
  | 0 => qOne
  | k + 1 => (flush (iterFailFlush k) none failEnv).2

/-- Scenario A: `maxQueueSize = 2`, then three successive normal-priority
enqueues (ids 1, 2, 3, enqueued at times 1, 2, 3). -/
def scenarioA : QueueState :=
  (enqueue (enqueue (enqueue { initQueue with maxQueueSize := 2 }
    "A" 0 "normal" 1 1).1 "B" 0 "normal" 2 2).1 "C" 0 "normal" 3 3).1

/-- A queue observed while another flush on the same instance is still in
progress. -/
def busyQueue : QueueState := { qOne with isProcessing := true }

/-- An environment in which the transport fails and the re-enqueue's
`saveQueue` throws, so `flush` propagates an exception. -/
def throwEnv : FlushEnv :=
  { dequeueSaveThrows := false
    outcome := fun _ => ItemOutcome.fail true
    freshId := fun i => 100 + i
    freshTime := fun i => 10 + (i : Int) }

end IngestQueue

namespace IngestQueue

/-- C5: `flush` is single-flight per queue instance: a call made while
`isProcessing` is set returns `{success: 0, failed: 0, retried: 0}` and
leaves the whole state — in particular the stored queue — unchanged, so no
item is processed by an overlapping flush. -/
theorem flush_single_flight_noop (s : QueueState) (maxBatch : Option Nat)
    (env : FlushEnv) (h : s.isProcessing = true) :
    flush s maxBatch env =
      (Except.ok { success := 0, failed := 0, retried := 0 }, s) := by
  simp [flush, h]

/-- Witness for C5 at a concrete busy queue. -/
theorem flush_single_flight_noop_witness :
    busyQueue.isProcessing = true ∧
    flush busyQueue none okEnv =
      (Except.ok { success := 0, failed := 0, retried := 0 }, busyQueue) :=
  ⟨rfl, flush_single_flight_noop busyQueue none okEnv rfl⟩

/-- C10: every `flush` call that actually runs (entered with the flag
down) leaves `isProcessing` false on exit, whether it returns counts or
propagates a storage exception — the `finally` clause always lowers the
flag, so a failed flush never blocks later ones. -/
theorem flush_clears_processing_flag (s : QueueState) (maxBatch : Option Nat)
    (env : FlushEnv) (h : s.isProcessing = false) :
    ((flush s maxBatch env).2).isProcessing = false := by
  unfold flush
  rw [h]
  simp only [Bool.false_eq_true, if_false]
  split
  · rfl
  · split
    · rfl
    · rfl

end IngestQueue

namespace IngestQueue

/-- Witness for C10: a flush whose re-enqueue `saveQueue` throws still
exits with the flag down. -/
theorem flush_clears_processing_flag_witness :
    qOne.isProcessing = false ∧
    (flush qOne none throwEnv).1 = Except.error () ∧
    ((flush qOne none throwEnv).2).isProcessing = false :=
  ⟨rfl, by decide, flush_clears_processing_flag qOne none throwEnv rfl⟩

/-- C3 (failing input): with `maxQueueSize = 2` and three successive
normal-priority enqueues, the stored queue ends as the first and third
items — the capacity eviction `pop()`s the newest entry of the
lowest-priority tier of the sorted array, not the globally oldest one, so
the claimed final contents `[2, 3]` do not hold. -/
theorem enqueue_capacity_evicts_newest_of_lowest_tier :
    scenarioA.stored.map QueueItem.id = [1, 3] ∧
    scenarioA.stored.length = 2 := by decide

end IngestQueue

namespace IngestQueue

/-- C2 (failing input): the re-enqueue in `flush` builds a fresh item with
`retries = 0`, so for a queue holding one item whose transport always
fails, every flush re-enqueues it with a persisted retry count of `0`:
`failed` is never incremented, the item is never dropped, and it is
retried on every one of arbitrarily many flushes. -/
theorem flush_requeue_resets_retries :
    ∀ k : Nat,
      (iterFailFlush k).stored.map QueueItem.retries = [0] ∧
      (flush (iterFailFlush k) none failEnv).1 =
        Except.ok { success := 0, failed := 0, retried := 1 } := by
  have h1 : flush qOne none failEnv =
      (Except.ok { success := 0, failed := 0, retried := 1 }, qFix) := by
    decide
  have h2 : flush qFix none failEnv =
      (Except.ok { success := 0, failed := 0, retried := 1 }, qFix) := by
    decide
  have hfix : ∀ k, iterFailFlush (k + 1) = qFix := by
    intro k
    induction k with
    | zero => simp [iterFailFlush, h1]
    | succ n ih => simp [iterFailFlush] at ih ⊢; rw [ih, h2]
  intro k
  cases k with
  | zero => exact ⟨by decide, by decide⟩
  | succ n =>
    rw [hfix n]
    exact ⟨by decide, by decide⟩

end IngestQueue

namespace Api

theorem foldl_intercept_refreshing (reqs : List Request) : ∀ (s : ApiState),
    s.isRefreshing = true →
    (∀ q ∈ reqs, isInvalidToken q.status q.bodyMsg = true ∧ q.retryFlag = false) →
    reqs.foldl interceptAuthError s =
      { s with refreshSubscribers := s.refreshSubscribers ++ reqs.map Request.rid } := by
  induction reqs with
  | nil => intro s hs _; simp
  | cons q rest ih =>
    intro s hs hall
    have hq := hall q (by simp)
    have hstep : interceptAuthError s q =
        { s with refreshSubscribers := s.refreshSubscribers ++ [q.rid] } := by
      simp [interceptAuthError, hq.1, hq.2, hs]
    simp only [List.foldl_cons, hstep]
    rw [ih _ (by simp [hs]) (fun p hp => hall p (by simp [hp]))]
    simp [List.append_assoc]

end Api

namespace Api

theorem refresh_single_flight (rt tok : String) (nrt : Option String)
    (r : Request) (rest : List Request)
    (hall : ∀ q ∈ r :: rest,
      isInvalidToken q.status q.bodyMsg = true ∧ q.retryFlag = false) :
    (continueRefresh ((r :: rest).foldl interceptAuthError
        (initState none (some rt)))).refreshCalls = 1 ∧
    ((completeRefresh (continueRefresh ((r :: rest).foldl interceptAuthError
        (initState none (some rt)))) (some (tok, nrt))).retried.map Prod.fst).Perm
      ((r :: rest).map Request.rid) ∧
    (∀ p ∈ (completeRefresh (continueRefresh ((r :: rest).foldl
        interceptAuthError (initState none (some rt))))
        (some (tok, nrt))).retried, p.2 = some tok) ∧
    (continueRefresh ((r :: rest).foldl interceptAuthError
        (initState none none))).refreshCalls = 0 := by
  have hr := hall r (by simp)
  have hrest : ∀ q ∈ rest,
      isInvalidToken q.status q.bodyMsg = true ∧ q.retryFlag = false :=
    fun q hq => hall q (by simp [hq])
  have step1 : ∀ sa : Option String,
      interceptAuthError (initState none sa) r =
        { initState none sa with isRefreshing := true,
                                 pendingInitiator := some r.rid } := by
    intro sa
    simp [interceptAuthError, hr.1, hr.2, initState]
  have efold : ∀ sa : Option String,
      (r :: rest).foldl interceptAuthError (initState none sa) =
        { initState none sa with
            isRefreshing := true
            pendingInitiator := some r.rid
            refreshSubscribers := rest.map Request.rid } := by
    intro sa
    simp only [List.foldl_cons, step1]
    rw [foldl_intercept_refreshing rest _ (by simp) hrest]
    simp [initState]
  refine ⟨?_, ?_, ?_, ?_⟩
  · rw [efold (some rt)]
    simp [continueRefresh, initState]
  · rw [efold (some rt)]
    simp only [continueRefresh, initState, completeRefresh]
    simp [List.map_append, List.map_map, Function.comp]
    exact List.perm_append_singleton r.rid (rest.map Request.rid)
  · rw [efold (some rt)]
    intro p hp
    simp only [continueRefresh, initState, completeRefresh] at hp
    simp [List.mem_append, List.mem_map] at hp
    rcases hp with ⟨a, _, h2⟩ | h2
    · exact h2.symm ▸ rfl
    · rw [h2]
  · rw [efold none]
    simp [continueRefresh, initState]

end Api

namespace Api

/-- Witness for C1: two requests failing in the same tick — a 401 and a
403 with an invalid-token body — produce exactly one refresh call, both are
retried once with the refreshed token, and with no stored session the
refresh call count is zero. -/
theorem refresh_single_flight_witness :
    (continueRefresh (([Request.mk 1 401 "" false,
        Request.mk 2 403 "Invalid token provided" false]).foldl
        interceptAuthError (initState none (some "refresh-0")))).refreshCalls
      = 1 ∧
    ((completeRefresh (continueRefresh (([Request.mk 1 401 "" false,
        Request.mk 2 403 "Invalid token provided" false]).foldl
        interceptAuthError (initState none (some "refresh-0"))))
        (some ("tok-1", none))).retried.map Prod.fst).Perm
      (([Request.mk 1 401 "" false,
        Request.mk 2 403 "Invalid token provided" false]).map Request.rid) ∧
    (∀ p ∈ (completeRefresh (continueRefresh (([Request.mk 1 401 "" false,
        Request.mk 2 403 "Invalid token provided" false]).foldl
        interceptAuthError (initState none (some "refresh-0"))))
        (some ("tok-1", none))).retried, p.2 = some "tok-1") ∧
    (continueRefresh (([Request.mk 1 401 "" false,
        Request.mk 2 403 "Invalid token provided" false]).foldl
        interceptAuthError (initState none none))).refreshCalls = 0 :=
  refresh_single_flight "refresh-0" "tok-1" none
    (Request.mk 1 401 "" false)
    [Request.mk 2 403 "Invalid token provided" false]
    (by decide)

end Api

namespace HealthSync

theorem syncAll_fold (ingestTypes : String → Bool)
    (ingestOut syncOut : String → List Nat → Except String Unit)
    (parallelMode : Bool) (readOut : String → Except String (List Nat)) :
    ∀ (ts : List String) (acc : Nat × List RequestRec),
      (ts.foldl (syncAllStep ingestTypes ingestOut syncOut parallelMode readOut) acc).1 =
        acc.1 + (ts.map (typeContribution ingestTypes ingestOut syncOut parallelMode readOut)).sum := by
  intro ts
  induction ts with
  | nil => intro acc; simp
  | cons t rest ih =>
    intro acc
    simp only [List.foldl_cons, List.map_cons, List.sum_cons]
    rw [ih]
    by_cases h : (countsFor readOut t).length = 0
    · simp [syncAllStep, typeContribution, h]
    · by_cases hc : countedResults (syncRecordsToEndpoint ingestTypes ingestOut
        syncOut t (countsFor readOut t) parallelMode).1 = true
      · simp [syncAllStep, typeContribution, h, hc, Nat.add_assoc]
      · simp [syncAllStep, typeContribution, h, hc, Nat.add_assoc]

/-- C8: `syncAll` isolates per-type failures — for every run it returns a
result (never throws once permissions pass), whose total is the sum of
independent per-type contributions, so one type's transport failure cannot
change any other type's contribution; in particular, in Scenario E (3
types where type 2's transport call throws) types 1 and 3 still report
their 3 records as synced out of 6 requested. -/
theorem syncAll_isolates_type_failures (recordTypes : List String)
    (readOut : String → Except String (List Nat))
    (ingestTypes : String → Bool)
    (ingestOut syncOut : String → List Nat → Except String Unit)
    (parallelMode : Bool) :
    (syncAll recordTypes readOut ingestTypes ingestOut syncOut parallelMode
        true).1 =
      Except.ok
        { total := (recordTypes.map (typeContribution ingestTypes ingestOut
            syncOut parallelMode readOut)).sum
          requested := (recordTypes.map (typeRequested readOut)).sum } ∧
    (syncAll ["HeartRate", "Steps", "Distance"] readOutScenarioE noIngestTypes
        ingestOutOk syncOutFailSteps false true).1 =
      Except.ok { total := 3, requested := 6 } := by
  constructor
  · simp only [syncAll, Bool.not_true, if_false, Bool.false_eq_true]
    rw [syncAll_fold]
    simp only [Nat.zero_add]
    rfl
  · decide

theorem syncRecordsToEndpoint_shape (ingestTypes : String → Bool)
    (ingestOut syncOut : String → List Nat → Except String Unit)
    (recordType : String) (records : List Nat) (parallelMode : Bool) :
    ((syncRecordsToEndpoint ingestTypes ingestOut syncOut recordType records
        parallelMode).2).length =
      ((if (getEndpointConfig ingestTypes recordType).useIngest ∨
          parallelMode = true then 1 else 0) +
       (if ¬ (getEndpointConfig ingestTypes recordType).useIngest ∨
          parallelMode = true then 1 else 0)) ∧
    ∀ req ∈ (syncRecordsToEndpoint ingestTypes ingestOut syncOut recordType
        records parallelMode).2,
      req.payload = records ∧ req.rtype = recordType := by
  unfold syncRecordsToEndpoint
  by_cases h1 : (getEndpointConfig ingestTypes recordType).useIngest = true <;>
    by_cases h2 : parallelMode = true <;>
      simp [h1, h2, RequestRec.payload, RequestRec.rtype]

theorem syncAll_trace_bulk (recordTypes : List String)
    (readOut : String → Except String (List Nat))
    (ingestTypes : String → Bool)
    (ingestOut syncOut : String → List Nat → Except String Unit)
    (parallelMode : Bool) :
    ∀ req ∈ (syncAll recordTypes readOut ingestTypes ingestOut syncOut
        parallelMode true).2,
      req.payload = countsFor readOut req.rtype := by
  have key : ∀ (ts : List String) (acc : Nat × List RequestRec),
      (∀ req ∈ acc.2, req.payload = countsFor readOut req.rtype) →
      ∀ req ∈ (ts.foldl (syncAllStep ingestTypes ingestOut syncOut
          parallelMode readOut) acc).2,
        req.payload = countsFor readOut req.rtype := by
    intro ts
    induction ts with
    | nil => intro acc hacc; exact hacc
    | cons t rest ih =>
      intro acc hacc
      simp only [List.foldl_cons]
      refine ih _ ?_
      intro req hreq
      unfold syncAllStep at hreq
      by_cases h : (countsFor readOut t).length = 0
      · rw [if_pos h] at hreq
        exact hacc req hreq
      · rw [if_neg h] at hreq
        simp only [List.mem_append] at hreq
        rcases hreq with hreq | hreq
        · exact hacc req hreq
        · have := (syncRecordsToEndpoint_shape ingestTypes ingestOut syncOut
            t (countsFor readOut t) parallelMode).2 req hreq
          rw [this.1, this.2]
      
  intro req hreq
  unfold syncAll at hreq
  simp only [Bool.not_true, if_false, Bool.false_eq_true] at hreq
  exact key recordTypes (0, []) (by simp) req hreq

end HealthSync

namespace HealthSync

/-- C4 (counterexample): every record type — including each member of any
candidate "legacy set" — submits a 3-record batch as exactly one bulk
`/sync/` request carrying all three records; no record type issues
one-record-at-a-time submissions. -/
theorem per_record_submission_absent :
    (syncRecordsToEndpoint noIngestTypes ingestOutOk syncOutOk "HeartRate"
        [1, 2, 3] false).2 = [RequestRec.syncReq "HeartRate" [1, 2, 3]] ∧
    (syncRecordsToEndpoint noIngestTypes ingestOutOk syncOutOk "Steps"
        [1, 2, 3] false).2 = [RequestRec.syncReq "Steps" [1, 2, 3]] ∧
    (syncRecordsToEndpoint noIngestTypes ingestOutOk syncOutOk "Accelerometer"
        [1, 2, 3] false).2 = [RequestRec.syncReq "Accelerometer" [1, 2, 3]] ∧
    (syncRecordsToEndpoint noIngestTypes ingestOutOk syncOutOk "Distance"
        [1, 2, 3] false).2 = [RequestRec.syncReq "Distance" [1, 2, 3]] ∧
    (syncRecordsToEndpoint noIngestTypes ingestOutOk syncOutOk "SleepSession"
        [1, 2, 3] false).2 = [RequestRec.syncReq "SleepSession" [1, 2, 3]] ∧
    (syncRecordsToEndpoint noIngestTypes ingestOutOk syncOutOk
        "ExerciseSession" [1, 2, 3] false).2 =
      [RequestRec.syncReq "ExerciseSession" [1, 2, 3]] ∧
    (syncRecordsToEndpoint noIngestTypes ingestOutOk syncOutOk "Weight"
        [1, 2, 3] false).2 = [RequestRec.syncReq "Weight" [1, 2, 3]] := by
  decide

/-- C4 (amended): every submission the orchestrator issues is a bulk
request: per type, `syncRecordsToEndpoint` issues one request to the
configured endpoint (two, one per endpoint, in dual-write/parallel mode),
each carrying the type's full record list, and every request in a
`syncAll` run's outbound trace carries the full record list read for its
type — there is no one-record-at-a-time paced submission path. -/
theorem sync_submissions_are_bulk :
    (∀ (ingestTypes : String → Bool)
       (ingestOut syncOut : String → List Nat → Except String Unit)
       (recordType : String) (records : List Nat) (parallelMode : Bool),
      ((syncRecordsToEndpoint ingestTypes ingestOut syncOut recordType records
          parallelMode).2).length =
        ((if (getEndpointConfig ingestTypes recordType).useIngest ∨
            parallelMode = true then 1 else 0) +
         (if ¬ (getEndpointConfig ingestTypes recordType).useIngest ∨
            parallelMode = true then 1 else 0)) ∧
      ∀ req ∈ (syncRecordsToEndpoint ingestTypes ingestOut syncOut recordType
          records parallelMode).2,
        req.payload = records ∧ req.rtype = recordType) ∧
    (∀ (recordTypes : List String)
       (readOut : String → Except String (List Nat))
       (ingestTypes : String → Bool)
       (ingestOut syncOut : String → List Nat → Except String Unit)
       (parallelMode : Bool),
      ∀ req ∈ (syncAll recordTypes readOut ingestTypes ingestOut syncOut
          parallelMode true).2,
        req.payload = countsFor readOut req.rtype) :=
  ⟨fun ingestTypes ingestOut syncOut recordType records parallelMode =>
    syncRecordsToEndpoint_shape ingestTypes ingestOut syncOut recordType
      records parallelMode,
   fun recordTypes readOut ingestTypes ingestOut syncOut parallelMode =>
    syncAll_trace_bulk recordTypes readOut ingestTypes ingestOut syncOut
      parallelMode⟩

end HealthSync

namespace ImuSync

theorem flushChunk_empty (b : Builder) (h : b.samples = []) :
    flushChunk b = (none, b) := by
  unfold flushChunk buildChunk
  simp [h]

theorem flushChunk_nonempty (b : Builder) (h : b.samples ≠ []) :
    flushChunk b =
      (some
        { deviceId := b.deviceId
          deviceModel := b.deviceModel
          platform := b.platform
          sampleRateHz := b.sampleRateHz
          startedAt := b.startedAt.getD 0
          samples := b.samples.map projSample },
       { b with samples := [], startedAt := none }) := by
  unfold flushChunk buildChunk
  rw [if_neg (by simpa [List.length_eq_zero] using h)]

end ImuSync

namespace ImuSync

theorem addSample_spec (b : Builder) (x y z : ℚ) (off : Option ℚ)
    (ts : Option Int) (now : Int) :
    (((addSample b x y z off ts now).1).isSome = true ↔
        b.maxSamples ≤ (b.samples.length : Int) + 1) ∧
    (∀ c, (addSample b x y z off ts now).1 = some c →
      c.samples.length = b.samples.length + 1 ∧
      ((addSample b x y z off ts now).2).samples = []) ∧
    ((addSample b x y z off ts now).1 = none →
      ((addSample b x y z off ts now).2).samples.length =
        b.samples.length + 1) ∧
    ((addSample b x y z off ts now).2).maxSamples = b.maxSamples ∧
    ((addSample b x y z off ts now).2).sampleRateHz = b.sampleRateHz := by
  unfold addSample
  by_cases h : b.maxSamples ≤ (b.samples.length : Int) + 1
  · rw [if_pos (by simpa using h)]
    rw [flushChunk_nonempty _ (by simp)]
    refine ⟨by simpa using h, ?_, ?_, ?_, ?_⟩
    · intro c hc
      cases hc
      simp
    · intro hnone
      cases hnone
    · rfl
    · rfl
  · rw [if_neg (by simpa using h)]
    refine ⟨by simpa using h, ?_, ?_, ?_, ?_⟩
    · intro c hc
      cases hc
    · intro _
      simp
    · rfl
    · rfl

end ImuSync

namespace ImuSync

theorem forceFlush_eq_flushChunk (b : Builder) : forceFlush b = flushChunk b := rfl

theorem reachable_buffer_lt_max (b : Builder) (hr : Reachable b) :
    1 ≤ b.maxSamples → (b.samples.length : Int) < b.maxSamples := by
  induction hr with
  | init d m p r =>
    intro hmax
    simpa [mkBuilder] using lt_of_lt_of_le Int.zero_lt_one (by simpa [mkBuilder] using hmax)
  | add b x y z off ts now h ih =>
    intro hmax
    have spec := addSample_spec b x y z off ts now
    have hm : 1 ≤ b.maxSamples := by rw [spec.2.2.2.1] at hmax; exact hmax
    have hlt := ih hm
    rw [spec.2.2.2.1]
    cases hopt : (addSample b x y z off ts now).1 with
    | some c =>
      rw [(spec.2.1 c hopt).2]
      simpa using lt_of_lt_of_le Int.zero_lt_one hm
    | none =>
      rw [spec.2.2.1 hopt]
      have : ¬ b.maxSamples ≤ (b.samples.length : Int) + 1 := by
        intro hle
        have := spec.1.mpr hle
        rw [hopt] at this
        exact Bool.noConfusion this
      push_cast
      omega
  | flush b h ih =>
    intro hmax
    cases hs : b.samples with
    | nil =>
      rw [flushChunk_empty b hs] at hmax ⊢
      have := ih hmax
      rw [hs] at this ⊢
      exact this
    | cons a l =>
      rw [flushChunk_nonempty b (by rw [hs]; exact List.cons_ne_nil a l)] at hmax ⊢
      simpa using lt_of_lt_of_le Int.zero_lt_one hmax
  | force b h ih =>
    intro hmax
    rw [forceFlush_eq_flushChunk] at hmax ⊢
    cases hs : b.samples with
    | nil =>
      rw [flushChunk_empty b hs] at hmax ⊢
      have := ih hmax
      rw [hs] at this ⊢
      exact this
    | cons a l =>
      rw [flushChunk_nonempty b (by rw [hs]; exact List.cons_ne_nil a l)] at hmax ⊢
      simpa using lt_of_lt_of_le Int.zero_lt_one hmax

end ImuSync

namespace ImuSync

theorem runFallback_cons (b : Builder) (v : ℚ × ℚ × ℚ)
    (rest : List (ℚ × ℚ × ℚ)) :
    runFallback b (v :: rest) =
      ((runFallback (addSample b v.1 v.2.1 v.2.2 none none 0).2 rest).1,
       (addSample b v.1 v.2.1 v.2.2 none none 0).1.toList ++
         (runFallback (addSample b v.1 v.2.1 v.2.2 none none 0).2 rest).2) :=
  rfl

theorem runFallback_no_seal : ∀ (xs : List (ℚ × ℚ × ℚ)) (b : Builder),
    (b.samples.length : Int) + xs.length < b.maxSamples →
    (runFallback b xs).2 = [] ∧
    (runFallback b xs).1.samples.length = b.samples.length + xs.length ∧
    (runFallback b xs).1.maxSamples = b.maxSamples := by
  intro xs
  induction xs with
  | nil => intro b h; simp [runFallback]
  | cons v rest ih =>
    intro b h
    have spec := addSample_spec b v.1 v.2.1 v.2.2 none none 0
    have hnoseal : ¬ b.maxSamples ≤ (b.samples.length : Int) + 1 := by
      simp only [List.length_cons] at h
      push_cast at h
      omega
    have hnone : (addSample b v.1 v.2.1 v.2.2 none none 0).1 = none := by
      cases hopt : (addSample b v.1 v.2.1 v.2.2 none none 0).1 with
      | none => rfl
      | some c =>
        exact absurd (spec.1.mp (by rw [hopt]; rfl)) hnoseal
    have hlen := spec.2.2.1 hnone
    have hmax := spec.2.2.2.1
    have hrec := ih (addSample b v.1 v.2.1 v.2.2 none none 0).2 (by
      rw [hlen, hmax]
      simp only [List.length_cons] at h
      push_cast at h ⊢
      omega)
    rw [runFallback_cons]
    refine ⟨?_, ?_, ?_⟩
    · simp [hnone, hrec.1]
    · simp only [hrec.2.1, hlen, List.length_cons]
      omega
    · rw [hrec.2.2, hmax]

theorem runFallback_exact_seal : ∀ (xs : List (ℚ × ℚ × ℚ)) (b : Builder),
    1 ≤ xs.length →
    (b.samples.length : Int) + xs.length = b.maxSamples →
    ∃ c, (runFallback b xs).2 = [c] ∧
      (c.samples.length : Int) = b.maxSamples ∧
      (runFallback b xs).1.samples = [] ∧
      (runFallback b xs).1.maxSamples = b.maxSamples := by
  intro xs
  induction xs with
  | nil => intro b h; simp at h
  | cons v rest ih =>
    intro b _ heq
    have spec := addSample_spec b v.1 v.2.1 v.2.2 none none 0
    by_cases hseal : b.maxSamples ≤ (b.samples.length : Int) + 1
    · have hrest : rest = [] := by
        simp only [List.length_cons] at heq
        cases rest with
        | nil => rfl
        | cons w rest2 =>
          exfalso
          simp only [List.length_cons] at heq
          push_cast at heq
          omega
      subst hrest
      have hsome : ((addSample b v.1 v.2.1 v.2.2 none none 0).1).isSome = true :=
        spec.1.mpr hseal
      cases hopt : (addSample b v.1 v.2.1 v.2.2 none none 0).1 with
      | none => rw [hopt] at hsome; exact Bool.noConfusion hsome
      | some c =>
        have hc := spec.2.1 c hopt
        refine ⟨c, ?_, ?_, ?_, ?_⟩
        · rw [runFallback_cons]
          simp [hopt, runFallback]
        · rw [hc.1]
          simp only [List.length_cons] at heq
          push_cast at heq ⊢
          omega
        · rw [runFallback_cons]
          simp [runFallback, hc.2]
        · rw [runFallback_cons]
          simp only [runFallback]
          rw [spec.2.2.2.1]
    · have hnone : (addSample b v.1 v.2.1 v.2.2 none none 0).1 = none := by
        cases hopt : (addSample b v.1 v.2.1 v.2.2 none none 0).1 with
        | none => rfl
        | some c => exact absurd (spec.1.mp (by rw [hopt]; rfl)) hseal
      have hlen := spec.2.2.1 hnone
      have hmax := spec.2.2.2.1
      have hrest1 : 1 ≤ rest.length := by
        cases rest with
        | nil =>
          exfalso
          simp only [List.length_cons, List.length_nil] at heq
          push_cast at heq
          omega
        | cons w rest2 => simp
      obtain ⟨c, hc1, hc2, hc3, hc4⟩ := ih (addSample b v.1 v.2.1 v.2.2 none none 0).2
        hrest1 (by
          rw [hlen, hmax]
          simp only [List.length_cons] at heq
          push_cast at heq ⊢
          omega)
      refine ⟨c, ?_, ?_, ?_, ?_⟩
      · rw [runFallback_cons]
        simp [hnone, hc1]
      · rw [hc2, hmax]
      · rw [runFallback_cons]
        exact hc3
      · rw [runFallback_cons]
        rw [hc4, hmax]

end ImuSync

namespace ImuSync

theorem chain_le_range_mul (n : Nat) (c : ℚ) (hc : 0 ≤ c) :
    List.Chain' (fun a b => a ≤ b) ((List.range n).map (fun i : Nat => (i : ℚ) * c)) := by
  rw [List.chain'_map]
  cases n with
  | zero => simp
  | succ m =>
    rw [List.chain'_range_succ]
    intro i _
    exact mul_le_mul_of_nonneg_right (by exact_mod_cast Nat.le_succ i) hc

theorem chunkOffsets_of_no_ts (c : Chunk) (l : List AccelSample)
    (hsamples : c.samples = l.map projSample)
    (hts : ∀ s ∈ l, s.ts = none) :
    chunkOffsets c = l.map (fun s => s.tOffsetMs.getD 0) := by
  unfold chunkOffsets
  rw [hsamples, List.map_map]
  refine List.map_congr_left ?_
  intro s hs
  have := hts s hs
  simp [projSample, this]

end ImuSync

namespace ImuSync

theorem addFallback_step (b : Builder) (v : ℚ × ℚ × ℚ)
    (hrate : 0 < b.sampleRateHz) (hbuf : FallbackBuffer b) :
    FallbackBuffer ((addSample b v.1 v.2.1 v.2.2 none none 0).2) ∧
    (∀ c, (addSample b v.1 v.2.1 v.2.2 none none 0).1 = some c →
      List.Chain' (fun a b => a ≤ b) (chunkOffsets c)) ∧
    ((addSample b v.1 v.2.1 v.2.2 none none 0).2).sampleRateHz =
      b.sampleRateHz := by
  have hc : (0 : ℚ) ≤ 1000 / b.sampleRateHz :=
    le_of_lt (div_pos (by norm_num) hrate)
  unfold addSample
  dsimp only
  set newSamp : AccelSample :=
    { x := v.1, y := v.2.1, z := v.2.2,
      tOffsetMs := some ((b.samples.length : ℚ) * (1000 / b.sampleRateHz)),
      ts := none } with hnew
  set b1 : Builder :=
    { b with
        startedAt := some (match b.startedAt with | some t => t | none => 0)
        samples := b.samples ++ [newSamp] } with hb1def
  have hb1 : FallbackBuffer b1 := by
    constructor
    · show (b.samples ++ [newSamp]).map (fun s => s.tOffsetMs) = _
      rw [List.map_append]
      rw [hbuf.1]
      show _ = (List.range (b.samples ++ [newSamp]).length).map _
      rw [List.length_append, List.length_singleton, List.range_succ,
        List.map_append]
      rfl
    · intro s hs
      rcases List.mem_append.mp hs with hs | hs
      · exact hbuf.2 s hs
      · rw [List.mem_singleton.mp hs]
  have hb1ts : ∀ s ∈ b1.samples, s.ts = none := hb1.2
  have hb1off : b1.samples.map (fun s => s.tOffsetMs.getD 0) =
      (List.range b1.samples.length).map
        (fun i : Nat => (i : ℚ) * (1000 / b.sampleRateHz)) := by
    have := congrArg (List.map (fun o : Option ℚ => o.getD 0)) hb1.1
    rw [List.map_map, List.map_map] at this
    exact this
  by_cases hseal : b.maxSamples ≤ ((b.samples ++ [newSamp]).length : Int)
  · rw [if_pos hseal]
    rw [flushChunk_nonempty b1 (by simp [hb1def])]
    refine ⟨?_, ?_, rfl⟩
    · constructor
      · simp
      · intro s hs
        simp at hs
    · intro c hcEq
      cases hcEq
      rw [chunkOffsets_of_no_ts _ b1.samples rfl hb1ts]
      rw [hb1off]
      exact chain_le_range_mul b1.samples.length (1000 / b.sampleRateHz) hc
  · rw [if_neg hseal]
    refine ⟨hb1, ?_, rfl⟩
    intro c hcEq
    simp at hcEq

end ImuSync

namespace ImuSync

theorem b50_maxSamples : b50.maxSamples = 250 := by
  unfold b50 mkBuilder
  norm_num

theorem b50_max_pos : 1 ≤ b50.maxSamples := by
  rw [b50_maxSamples]
  decide

theorem b50_rate_pos : 0 < b50.sampleRateHz := by
  show (0 : ℚ) < 50
  norm_num

theorem b50_fallback : FallbackBuffer b50 := ⟨rfl, by simp [b50, mkBuilder]⟩

/-- C6: the constructor sets
`maxSamples = floor(sampleRateHz * chunkDurationMs / 1000)` (with
`chunkDurationMs = 5000`); on a reachable builder `addSample` seals a chunk
and resets the buffer exactly when the buffered count reaches `maxSamples`
(the sealed chunk has exactly `maxSamples` samples) and otherwise returns
null, growing the buffer by one; and in Scenario C (`sampleRateHz = 50`,
so `maxSamples = 250`) adding 250 samples yields exactly one sealed chunk
of 250 samples on the 250th call, leaving the buffer empty, while 249
samples yield none. -/
theorem addSample_seals_exactly_at_capacity (b : Builder) (hr : Reachable b)
    (hmax : 1 ≤ b.maxSamples) (x y z : ℚ) (off : Option ℚ) (ts : Option Int)
    (now : Int) :
    (((addSample b x y z off ts now).1).isSome = true ↔
      (b.samples.length : Int) + 1 = b.maxSamples) ∧
    (∀ c, (addSample b x y z off ts now).1 = some c →
      (c.samples.length : Int) = b.maxSamples ∧
      ((addSample b x y z off ts now).2).samples = []) ∧
    ((addSample b x y z off ts now).1 = none →
      ((addSample b x y z off ts now).2).samples.length =
        b.samples.length + 1) ∧
    (∀ (d p : String) (dm : Option String) (r : ℚ),
      (mkBuilder d dm p r).maxSamples = Int.floor (r * 5000 / 1000)) ∧
    b50.maxSamples = 250 ∧
    chunkLengths (runFallback b50 (List.replicate 250 (0, 0, 0))).2 = [250] ∧
    (runFallback b50 (List.replicate 250 (0, 0, 0))).1.samples = [] ∧
    (runFallback b50 (List.replicate 249 (0, 0, 0))).2 = [] := by
  have hlt := reachable_buffer_lt_max b hr hmax
  have spec := addSample_spec b x y z off ts now
  have hiff : ((addSample b x y z off ts now).1).isSome = true ↔
      (b.samples.length : Int) + 1 = b.maxSamples := by
    constructor
    · intro hs
      have hle := spec.1.mp hs
      omega
    · intro he
      exact spec.1.mpr (by omega)
  have h0 : b50.samples = [] := rfl
  refine ⟨hiff, ?_, spec.2.2.1, fun d p dm r => rfl, b50_maxSamples,
    ?_, ?_, ?_⟩
  · intro c hc
    have h1 := spec.2.1 c hc
    have heq := hiff.mp (by rw [hc]; rfl)
    refine ⟨?_, h1.2⟩
    rw [h1.1]
    push_cast
    omega
  · obtain ⟨c, h1, h2, _, _⟩ :=
      runFallback_exact_seal (List.replicate 250 (0, 0, 0)) b50
        (by rw [List.length_replicate]; omega)
        (by rw [h0, b50_maxSamples, List.length_replicate]; norm_num)
    rw [h1]
    show [c.samples.length] = [250]
    have h4 : (c.samples.length : Int) = 250 := by rw [h2, b50_maxSamples]
    have h5 : c.samples.length = 250 := by exact_mod_cast h4
    rw [h5]
  · obtain ⟨c, _, _, h3, _⟩ :=
      runFallback_exact_seal (List.replicate 250 (0, 0, 0)) b50
        (by rw [List.length_replicate]; omega)
        (by rw [h0, b50_maxSamples, List.length_replicate]; norm_num)
    exact h3
  · exact (runFallback_no_seal (List.replicate 249 (0, 0, 0)) b50
      (by rw [h0, b50_maxSamples, List.length_replicate]; norm_num)).1

/-- Witness for C6 at the Scenario C builder. -/
theorem addSample_seals_exactly_at_capacity_witness :
    1 ≤ b50.maxSamples ∧
    (((addSample b50 0 0 0 none none 0).1).isSome = true ↔
      (b50.samples.length : Int) + 1 = b50.maxSamples) :=
  ⟨b50_max_pos,
   (addSample_seals_exactly_at_capacity b50
     (Reachable.init "test-device" none "wear-os" 50) b50_max_pos
     0 0 0 none none 0).1⟩

/-- C7: on a reachable builder, `forceFlush` of an empty buffer returns
null and changes nothing; `forceFlush` of a non-empty buffer returns a
chunk whose samples are exactly the buffered samples (the same list,
projected sample-by-sample in order) and resets the buffer; and no chunk
produced — by `forceFlush` or by an `addSample` seal — carries more than
`maxSamples` samples. -/
theorem forceFlush_spec (b : Builder) (hr : Reachable b)
    (hmax : 1 ≤ b.maxSamples) :
    (b.samples = [] → forceFlush b = (none, b)) ∧
    (b.samples ≠ [] →
      forceFlush b =
        (some { deviceId := b.deviceId, deviceModel := b.deviceModel,
                platform := b.platform, sampleRateHz := b.sampleRateHz,
                startedAt := b.startedAt.getD 0,
                samples := b.samples.map projSample },
         { b with samples := [], startedAt := none })) ∧
    (∀ c, (forceFlush b).1 = some c →
      (c.samples.length : Int) ≤ b.maxSamples) ∧
    (∀ (x y z : ℚ) (off : Option ℚ) (ts : Option Int) (now : Int)
       (c : Chunk),
      (addSample b x y z off ts now).1 = some c →
      (c.samples.length : Int) ≤ b.maxSamples) := by
  have hlt := reachable_buffer_lt_max b hr hmax
  refine ⟨?_, ?_, ?_, ?_⟩
  · intro h
    rw [forceFlush_eq_flushChunk]
    exact flushChunk_empty b h
  · intro h
    rw [forceFlush_eq_flushChunk]
    exact flushChunk_nonempty b h
  · intro c hc
    rw [forceFlush_eq_flushChunk] at hc
    cases hs : b.samples with
    | nil =>
      rw [flushChunk_empty b hs] at hc
      exact absurd hc (by simp)
    | cons a l =>
      rw [flushChunk_nonempty b (by rw [hs]; exact List.cons_ne_nil a l)]
        at hc
      dsimp only at hc
      injection hc with hc
      rw [← hc]
      simpa using le_of_lt hlt
  · intro x y z off ts now c hc
    have spec := addSample_spec b x y z off ts now
    have h1 := (spec.2.1 c hc).1
    rw [h1]
    push_cast
    omega

/-- Witness for C7 at the Scenario C builder (empty buffer). -/
theorem forceFlush_spec_witness :
    1 ≤ b50.maxSamples ∧ forceFlush b50 = (none, b50) :=
  ⟨b50_max_pos,
   (forceFlush_spec b50 (Reachable.init "test-device" none "wear-os" 50)
     b50_max_pos).1 rfl⟩

end ImuSync

namespace ImuSync

/-- C9 (amended): within every chunk produced over a run in which every
sample is added through the index-based fallback path (no explicit
`tOffsetMs`, no explicit `ts`), the offsets relative to `startedAt` are
non-decreasing; samples added with explicit offsets or timestamps are
recorded as given and may decrease (see the counterexample). -/
theorem fallback_offsets_monotone : ∀ (xs : List (ℚ × ℚ × ℚ)) (b : Builder),
    0 < b.sampleRateHz → FallbackBuffer b →
    (∀ c ∈ (runFallback b xs).2,
      List.Chain' (fun a b => a ≤ b) (chunkOffsets c)) ∧
    FallbackBuffer (runFallback b xs).1 := by
  intro xs
  induction xs with
  | nil =>
    intro b hrate hbuf
    exact ⟨by simp [runFallback], hbuf⟩
  | cons v rest ih =>
    intro b hrate hbuf
    have step := addFallback_step b v hrate hbuf
    have hrate2 :
        0 < ((addSample b v.1 v.2.1 v.2.2 none none 0).2).sampleRateHz := by
      rw [step.2.2]; exact hrate
    have rec := ih _ hrate2 step.1
    rw [runFallback_cons]
    constructor
    · intro c hcmem
      simp only [List.mem_append] at hcmem
      rcases hcmem with hcmem | hcmem
      · cases hopt : (addSample b v.1 v.2.1 v.2.2 none none 0).1 with
        | none =>
          rw [hopt] at hcmem
          simp at hcmem
        | some c2 =>
          rw [hopt] at hcmem
          simp only [Option.toList_some, List.mem_singleton] at hcmem
          subst hcmem
          exact step.2.1 c hopt
      · exact rec.1 c hcmem
    · exact rec.2

/-- C9 (counterexample): two samples added with explicit offsets `100`
then `0` to a fresh 50 Hz builder produce, on `forceFlush`, a chunk whose
relative offsets are `[100, 0]` — not non-decreasing, so the claim fails
for arbitrary interleavings of explicitly-timed samples. -/
theorem explicit_offsets_can_decrease :
    b50Lit = mkBuilder "dev" none "wear-os" 50 ∧
    ((forceFlush (addSample (addSample b50Lit
        0 0 0 (some 100) none 0).2 0 0 0 (some 0) none 0).2).1).map
      chunkOffsets = some [100, 0] ∧
    ¬ offsetsMonotone [(100 : ℚ), 0] := by
  refine ⟨?_, by decide, ?_⟩
  · unfold b50Lit mkBuilder
    norm_num
  · unfold offsetsMonotone
    intro h
    exact absurd (List.chain'_cons.mp h).1 (by decide)

/-- Witness for the amended C9 on a concrete two-sample fallback run. -/
theorem fallback_offsets_monotone_witness :
    0 < b50.sampleRateHz ∧ FallbackBuffer b50 ∧
    (∀ c ∈ (runFallback b50 [(1, 2, 3), (4, 5, 6)]).2,
      List.Chain' (fun a b => a ≤ b) (chunkOffsets c)) ∧
    FallbackBuffer (runFallback b50 [(1, 2, 3), (4, 5, 6)]).1 :=
  ⟨b50_rate_pos, b50_fallback,
   (fallback_offsets_monotone [(1, 2, 3), (4, 5, 6)] b50
     b50_rate_pos b50_fallback).1,
   (fallback_offsets_monotone [(1, 2, 3), (4, 5, 6)] b50
     b50_rate_pos b50_fallback).2⟩

end ImuSync
